import Mathlib

/-!
# Verification of the redis-rest-proxy command/format layer

Shallow embedding of `src/server.ts` of the `redis-rest-proxy` repository:
the auth check, the Base64/response formatter, the command builder and the
batch executor, together with proofs of the specified properties.

JavaScript dynamic values are modelled by explicit tagged unions:
`Json` for parsed request bodies and `StoreValue` for replies coming back
from the store client.  Strings are Lean `String`s, numbers are `Int`
(the code only ever stringifies them), raw byte buffers are lists of byte
values (`Nat` below 256).
-/

/-- A parsed JSON document, as produced by `JSON.parse`. -/
inductive Json where
  | jnull : Json
  | jbool : Bool → Json
  | jnum : Int → Json
  | jstr : String → Json
  | jarr : List Json → Json
  | jobj : List (String × Json) → Json
deriving Repr

/-- A reply value produced by the store client (ioredis), consumed by the
response formatter: null, boolean, integer, string, raw byte buffer,
array, or key-value mapping (a plain JS object). -/
inductive StoreValue where
  | vnull : StoreValue
  | vbool : Bool → StoreValue
  | vint : Int → StoreValue
  | vstr : String → StoreValue
  | vbytes : List Nat → StoreValue
  | varr : List StoreValue → StoreValue
  | vobj : List (String × StoreValue) → StoreValue
deriving Repr

namespace RedisProxy

/-!
JavaScript string primitives used by the source (`trim`, `split('/')`,
`startsWith`, `slice`, `toLowerCase`), implemented over the character
list of a Lean `String` by structural recursion so that every definition
evaluates inside the kernel.
-/

/-- JS whitespace test for `String.prototype.trim` (ASCII part; the
strings the claims touch contain no exotic whitespace). -/
def jsIsWs (c : Char) : Bool :=
  c = ' ' ∨ c = '\t' ∨ c = '\n' ∨ c = '\r' ∨ c = '\x0b' ∨ c = '\x0c'

/-- `s.trim()`: strip leading and trailing whitespace. -/
def jsTrim (s : String) : String :=
  ⟨((s.data.dropWhile jsIsWs).reverse.dropWhile jsIsWs).reverse⟩

/-- One step of `s.split(sep)` for a one-character separator, over the
character list. -/
def jsSplitCharList (sep : Char) : List Char → List String
  | [] => [""]
  | c :: cs =>
    let r := jsSplitCharList sep cs
    if c = sep then "" :: r
    else
      match r with
      | [] => [⟨[c]⟩]
      | h :: t => (⟨c :: h.data⟩ : String) :: t

/-- `s.split(sep)` for a one-character separator (the source splits the
path on `'/'`). -/
def jsSplit (s : String) (sep : Char) : List String :=
  jsSplitCharList sep s.data

/-- `s.startsWith(p)`. -/
def jsStartsWith (s p : String) : Bool :=
  p.data.isPrefixOf s.data

/-- `s.slice(n)` for a non-negative index (the source drops the
`"Bearer "` prefix with `slice(7)`). -/
def jsSlice (s : String) (n : Nat) : String :=
  ⟨s.data.drop n⟩

/-- ASCII lowering of one character, the fragment of `toLowerCase` the
header comparison needs. -/
def jsLowerChar (c : Char) : Char :=
  if 65 ≤ c.toNat ∧ c.toNat ≤ 90 then Char.ofNat (c.toNat + 32) else c

/-- `s.toLowerCase()` (ASCII fragment). -/
def jsToLower (s : String) : String :=
  ⟨s.data.map jsLowerChar⟩

/-- UTF-8 encoding of one character, as a list of byte values
(`Buffer.from(s, 'utf8')` in the source). -/
def utf8EncodeChar (c : Char) : List Nat :=
  let n := c.toNat
  if n < 0x80 then [n]
  else if n < 0x800 then [0xC0 + n / 64, 0x80 + n % 64]
  else if n < 0x10000 then [0xE0 + n / 4096, 0x80 + (n / 64) % 64, 0x80 + n % 64]
  else [0xF0 + n / 262144, 0x80 + (n / 4096) % 64, 0x80 + (n / 64) % 64, 0x80 + n % 64]

/-- The UTF-8 bytes of a string. -/
def utf8Bytes (s : String) : List Nat :=
  s.data.flatMap utf8EncodeChar

/-- The standard Base64 alphabet. -/
def base64Alphabet : List Char :=
  "ABCDEFGHIJKLMNOPQRSTUVWXYZabcdefghijklmnopqrstuvwxyz0123456789+/".data

/-- The Base64 digit for a 6-bit group. -/
def b64Char (n : Nat) : Char := base64Alphabet.getD n 'A'

/-- Standard padded Base64 of a byte list (`buffer.toString('base64')`). -/
def base64Encode : List Nat → String
  | [] => ""
  | [a] =>
    String.mk [b64Char (a / 4), b64Char (a % 4 * 16)] ++ "=="
  | [a, b] =>
    String.mk [b64Char (a / 4), b64Char (a % 4 * 16 + b / 16), b64Char (b % 16 * 4)] ++ "="
  | a :: b :: c :: rest =>
    String.mk [b64Char (a / 4), b64Char (a % 4 * 16 + b / 16),
               b64Char (b % 16 * 4 + c / 64), b64Char (c % 64)] ++ base64Encode rest

/-- `Buffer.from(value, 'utf8').toString('base64')` from `encodeToBase64`. -/
def b64 (s : String) : String := base64Encode (utf8Bytes s)

/-- `Object.entries` of a raw byte buffer: typed-array indices are own
enumerable properties, so the entries are (index-string, byte-number)
pairs, in index order. -/
def bufferEntries (bs : List Nat) : List (String × StoreValue) :=
  bs.enum.map (fun p => (toString p.1, StoreValue.vint (Int.ofNat p.2)))

mutual

/--
`encodeToBase64` from `src/server.ts`: a string other than the literal
`"OK"` becomes the Base64 of its UTF-8 bytes; an array maps the encoding
over its elements; any other non-null `object` (a plain mapping, but also
a raw byte buffer) is rebuilt from its `Object.entries` with every value
encoded; everything else (null, booleans, numbers, the string `"OK"`) is
returned unchanged.  For a byte buffer the entry values are numbers, which
the recursive call returns unchanged, so the buffer case is written with
the values passed through directly.
-/
def encodeToBase64 : StoreValue → StoreValue
  | .vstr s => if s = "OK" then .vstr s else .vstr (b64 s)
  | .varr l => .varr (encodeToBase64List l)
  | .vobj kvs => .vobj (encodeToBase64Entries kvs)
  | .vbytes bs => .vobj (bufferEntries bs)
  | v => v

def encodeToBase64List : List StoreValue → List StoreValue
  | [] => []
  | v :: vs => encodeToBase64 v :: encodeToBase64List vs

def encodeToBase64Entries : List (String × StoreValue) → List (String × StoreValue)
  | [] => []
  | (k, v) :: kvs => (k, encodeToBase64 v) :: encodeToBase64Entries kvs

end

/--
The object-to-array conversion at the top of `formatRedisResponse`
(`typeof reply === 'object' && reply !== null && !Array.isArray(reply)`):
a mapping is replaced by `Object.entries(reply).flat()`, the alternating
key/value array.  A raw byte buffer also satisfies the test (it is a
non-null, non-array `object`), so it is likewise flattened into an
alternating index-string/byte-number array.
-/
def flattenReply : StoreValue → StoreValue
  | .vobj kvs => .varr (kvs.flatMap (fun kv => [.vstr kv.1, kv.2]))
  | .vbytes bs => .varr ((bufferEntries bs).flatMap (fun kv => [.vstr kv.1, kv.2]))
  | v => v

/--
`formatRedisResponse` from `src/server.ts` (the version under `src/`,
which only consults the `Upstash-Encoding` header): flatten a mapping
reply, then Base64-encode it when the lowercased header value is
`"base64"`, else return it as is.  The function only reads that one
header, so the header value stands in for the request argument.
-/
def formatRedisResponse (reply : StoreValue) (upstashEncoding : Option String) : StoreValue :=
  let reply := flattenReply reply
  if upstashEncoding.map jsToLower = some "base64" then encodeToBase64 reply else reply

/--
The token-extraction logic of `checkAuth` from `src/server.ts`, producing
the final value of its `token` variable: the part of the `Authorization`
header after `"Bearer "` when the header has that prefix, and otherwise
(that is, whenever that part is the empty string) the first `_token`
query parameter when one exists; the empty string when neither applies.
-/
def effectiveToken (authHeader : Option String) (query : List (String × String)) : String :=
  let ah := authHeader.getD ""
  let token := if jsStartsWith ah "Bearer " then jsSlice ah 7 else ""
  if token = "" then
    match query.find? (fun kv => kv.1 = "_token") with
    | some kv => kv.2
    | none => token
  else token

/-- `checkAuth` from `src/server.ts`: the extracted token must equal the
configured secret exactly. -/
def checkAuth (authHeader : Option String) (query : List (String × String))
    (secret : String) : Bool :=
  effectiveToken authHeader query == secret

/--
An incoming HTTP request, carrying the parts of the Fetch `Request`
object the server reads.  `bodyJson` is the result of `JSON.parse` on
`bodyText` (`none` when the text is not valid JSON); the two header
fields hold raw header values (`none` when the header is absent).
-/
structure Req where
  method : String
  pathname : String
  authHeader : Option String
  query : List (String × String)
  bodyText : String
  bodyJson : Option Json
  upstashEncoding : Option String
  responseFormat : Option String

/-- `String(x)` as applied by the source to command-array elements, which
the zod schemas constrain to strings and numbers. -/
def jsToString : Json → String
  | .jstr s => s
  | .jnum n => toString n
  | .jbool b => if b then "true" else "false"
  | .jnull => "null"
  | _ => ""

/-- Is a parsed JSON value a string or a number (`z.union([z.string(),
z.number()])`)? -/
def isPrim : Json → Bool
  | .jstr _ => true
  | .jnum _ => true
  | _ => false

/-- Is a parsed JSON value an array (`Array.isArray`)? -/
def isJsonArr : Json → Bool
  | .jarr _ => true
  | _ => false

/--
The `genericCommandSchema` of `src/server.ts`: an array of
strings/numbers whose first element is a string; on success, the first
element (stringified) is the command and the rest (stringified) the
arguments.  The exact text of the zod union error is not reproduced; the
refine message is.
-/
def parseGenericCommand (elems : List Json) : Except String (String × List String) :=
  if elems.all isPrim then
    match elems with
    | .jstr c :: rest => .ok (c, rest.map jsToString)
    | _ => .error "The first element must be the command name (a string)."
  else .error "Expected string or number."

/-- The query-argument collection loop of `buildCommand`: every key/value
pair except `_token`, pushed as key then value, in iteration order. -/
def queryArgsOf (query : List (String × String)) : List String :=
  query.foldl (fun acc kv => if kv.1 = "_token" then acc else acc ++ [kv.1, kv.2]) []

/-- The batch-redirect error message of `buildCommand`. -/
def batchRedirectMsg : String :=
  "Expected a flat JSON array for a single command. For batch commands, please use /pipeline or /multi-exec."

/-- The URL-path fallback of `buildCommand`: split the path on `/`, drop
empty segments, take the first segment as the command and the rest as
arguments, appending the collected query arguments; no segments is a
fatal error. -/
def pathCommand (pathname : String) (queryArgs : List String) :
    Except String (String × List String) :=
  match (jsSplit pathname '/').filter (fun s => s ≠ "") with
  | [] => .error "No command provided in URL."
  | c :: rest => .ok (c, rest ++ queryArgs)

/--
`buildCommand` from `src/server.ts`.  The body is parsed only when the
method is `POST` and the body text is non-blank (a parse failure is
fatal); a parsed JSON `null` leaves `bodyParsed` null.  A parsed array
whose first element is an array raises the batch-redirect error; any
other parsed array goes through `genericCommandSchema` and wins over the
path.  Otherwise the path segments supply the command, and the collected
query arguments are appended in every successful case.
-/
def buildCommand (req : Req) (pathname : String) : Except String (String × List String) :=
  let queryArgs := queryArgsOf req.query
  let parseStep : Except String (Option Json) :=
    if req.method = "POST" ∧ jsTrim req.bodyText ≠ "" then
      match req.bodyJson with
      | none => .error "Unable to parse request body as JSON."
      | some j => .ok (match j with | .jnull => none | _ => some j)
    else .ok none
  match parseStep with
  | .error e => .error e
  | .ok bodyParsed =>
    match bodyParsed with
    | some (.jarr elems) =>
      if (elems.head?.map isJsonArr).getD false then .error batchRedirectMsg
      else
        match parseGenericCommand elems with
        | .error e => .error e
        | .ok (c, args) => .ok (c, args ++ queryArgs)
    | _ => pathCommand pathname queryArgs

/-- One result returned by a pipeline / transaction: the per-command
error (if any) and the value, as produced by `executor.exec()`. -/
def CmdResult : Type := Option String × StoreValue

/--
The store client seen by the server (`getRedis()` of `redisClient.ts`),
abstracted over the network: `ping` for `/health`, `call` for a single
generic command, and for each batch mode a function from the list of
queued `(command, args)` pairs to the result list of `exec()` (`none`
models a null exec result).  The queueing-and-exec structure of the
pipeline/multi contexts is kept in `executeBatchCommands` itself.
-/
structure RedisClient where
  ping : String
  call : String → List String → Except String StoreValue
  pipeExec : List (String × List String) → Option (List CmdResult)
  multiExec : List (String × List String) → Option (List CmdResult)

/-- Batch mode: `/pipeline` vs `/multi-exec`. -/
inductive BatchMode where
  | pipeline : BatchMode
  | multi : BatchMode
deriving Repr, DecidableEq

/--
The queue built by the loop of `executeBatchCommands`: each command array
must be non-empty (else the loop throws), its first element (stringified)
is the command and the rest (stringified) the arguments, queued in the
order given.  The loop checks commands front to back, so the error
surfaces at the first empty array.
-/
def buildQueue : List (List Json) → Except String (List (String × List String))
  | [] => .ok []
  | [] :: _ => .error "Each command must be a non‑empty array"
  | (x :: args) :: rest =>
    match buildQueue rest with
    | .error e => .error e
    | .ok q => .ok ((jsToString x, args.map jsToString) :: q)

/--
`executeBatchCommands` from `src/server.ts`: build one pipeline or one
multi context, queue every command in order, run `exec()` once; a null
exec result is fatal (`"Pipeline failed"` / `"Transaction failed"`), and
otherwise the result list is returned exactly as the store produced it.
-/
def executeBatchCommands (r : RedisClient) (commands : List (List Json))
    (mode : BatchMode) : Except String (List CmdResult) :=
  match buildQueue commands with
  | .error e => .error e
  | .ok queue =>
    match (match mode with
           | .pipeline => r.pipeExec queue
           | .multi => r.multiExec queue) with
    | none => .error (match mode with
                      | .pipeline => "Pipeline failed"
                      | .multi => "Transaction failed")
    | some results => .ok results

/-- The `batchCommandSchema` of `src/server.ts` applied to the parsed
body: a JSON array of arrays of strings/numbers; anything else (including
an unparseable body) is a schema failure. -/
def parseBatchBody (j : Option Json) : Option (List (List Json)) :=
  match j with
  | some (.jarr rows) =>
    if rows.all (fun r => match r with
                          | .jarr es => es.all isPrim
                          | _ => false) then
      some (rows.map (fun r => match r with | .jarr es => es | _ => []))
    else none
  | _ => none

/-- A JSON response body produced by the server, paired with a status in
`handler` below: `{error}` objects, `{result}` objects, the `/health`
body, and the per-command array of a batch response. -/
inductive RespBody where
  | errorMsg : String → RespBody
  | result : StoreValue → RespBody
  | health : String → RespBody
  | batch : List (String ⊕ StoreValue) → RespBody

/--
`handleBatchCommands` from `src/server.ts`: schema failure → 400
`Expected a JSON array of command arrays`; an execution error → 400 with
its message; otherwise each `(error, value)` pair becomes `{error}` or
`{result: formatted value}` in order, status 200.
-/
def handleBatchCommands (r : RedisClient) (req : Req) (mode : BatchMode) :
    Nat × RespBody :=
  match parseBatchBody req.bodyJson with
  | none => (400, .errorMsg "Expected a JSON array of command arrays")
  | some rows =>
    match executeBatchCommands r rows mode with
    | .error e => (400, .errorMsg e)
    | .ok results =>
      (200, .batch (results.map (fun er =>
        match er.1 with
        | some m => .inl m
        | none => .inr (formatRedisResponse er.2 req.upstashEncoding))))

/--
The main request `handler` of `src/server.ts`: `/health` bypasses auth;
every other path is first authenticated (`401 {error: "Unauthorized"}` on
failure); `POST /pipeline` and `POST /multi-exec` run the batch path; any
other request runs `buildCommand` and a single store call, mapping an
error from either to 400 and a reply to `200 {result: formatted reply}`.
-/
def handler (r : RedisClient) (secret : String) (req : Req) : Nat × RespBody :=
  if req.pathname = "/health" then (200, .health r.ping)
  else if ¬ checkAuth req.authHeader req.query secret then
    (401, .errorMsg "Unauthorized")
  else if req.pathname = "/pipeline" ∧ req.method = "POST" then
    handleBatchCommands r req .pipeline
  else if req.pathname = "/multi-exec" ∧ req.method = "POST" then
    handleBatchCommands r req .multi
  else
    match buildCommand req req.pathname with
    | .error e => (400, .errorMsg e)
    | .ok (c, args) =>
      match r.call c args with
      | .error e => (400, .errorMsg e)
      | .ok reply => (200, .result (formatRedisResponse reply req.upstashEncoding))

/-- Raw bytes of a buffer rendered into the reply string, one character
per byte. -/
def stringOfBytes (bs : List Nat) : String :=
  ⟨bs.map Char.ofNat⟩

mutual

/--
Modelled from the spec: `formatResp2` is exported from `src/server.ts`
and exercised by the repository's test suite, but the copy of
`server.ts` under `src/` does not contain it; the definition follows
section 4.4 of the spec.  `null → $-1`, buffer → bulk of its bytes,
boolean → `:1`/`:0`, integer → `:<n>`, the string `"OK"` → the simple
status `+OK`, any other string → a bulk string with its UTF-8 byte
length, array → `*<count>` followed by the encodings of its elements
concatenated.  The spec gives no mapping case (a top-level mapping is
flattened before this function runs); a nested mapping is encoded as its
alternating key/value array.  The error case of the spec is not modelled:
`StoreValue` has no error variant.
-/
def formatResp2 : StoreValue → String
  | .vnull => "$-1\r\n"
  | .vbytes bs => "$" ++ toString bs.length ++ "\r\n" ++ stringOfBytes bs ++ "\r\n"
  | .vbool b => if b then ":1\r\n" else ":0\r\n"
  | .vint n => ":" ++ toString n ++ "\r\n"
  | .vstr s =>
    if s = "OK" then "+OK\r\n"
    else "$" ++ toString (utf8Bytes s).length ++ "\r\n" ++ s ++ "\r\n"
  | .varr l => "*" ++ toString l.length ++ "\r\n" ++ formatResp2List l
  | .vobj kvs => "*" ++ toString (2 * kvs.length) ++ "\r\n" ++ formatResp2Entries kvs

def formatResp2List : List StoreValue → String
  | [] => ""
  | v :: vs => formatResp2 v ++ formatResp2List vs

def formatResp2Entries : List (String × StoreValue) → String
  | [] => ""
  | (k, v) :: kvs => formatResp2 (.vstr k) ++ formatResp2 v ++ formatResp2Entries kvs

end

/--
Modelled from the spec: the version of `formatRedisResponse` with the
RESP2 branch, which the repository's test suite exercises through the
`Upstash-Response-Format` header but which is missing from the copy of
`server.ts` under `src/`.  Per section 4.4 of the spec: flatten a mapping
reply, then serialize it with `formatResp2` when the response-format
header requests RESP2 (`resp2`, compared lowercased like the encoding
header); else Base64-encode it when the encoding header is `base64`;
else return it unchanged.  RESP2 is checked first, so it takes precedence
when both headers are present.
-/
def formatRedisResponseR2 (reply : StoreValue)
    (responseFormat upstashEncoding : Option String) : String ⊕ StoreValue :=
  let reply := flattenReply reply
  if responseFormat.map jsToLower = some "resp2" then .inl (formatResp2 reply)
  else if upstashEncoding.map jsToLower = some "base64" then .inr (encodeToBase64 reply)
  else .inr reply

/--
The token a request supplies, as `checkAuth` sees it: the non-empty part
of the `Authorization` header after `"Bearer "`, else the first `_token`
query parameter, else nothing.  `effectiveToken` is this with `""` for
"nothing".
-/
def suppliedToken (authHeader : Option String) (query : List (String × String)) :
    Option String :=
  let ah := authHeader.getD ""
  let token := if jsStartsWith ah "Bearer " then jsSlice ah 7 else ""
  if token = "" then (query.find? (fun kv => kv.1 = "_token")).map (fun kv => kv.2)
  else some token

/-- The `(String(cmd), args.map(String))` normalization applied by
`executeBatchCommands` to each non-empty command array (the empty case
is unreachable there). -/
def normCmd : List Json → String × List String
  | [] => ("", [])
  | x :: args => (jsToString x, args.map jsToString)

mutual

/-- Does every string occurring in a value (including inside arrays and
mapping values) equal the literal `"OK"`?  On such values — and only on
string leaves does `encodeToBase64` ever change a scalar — the Base64
transform is idempotent. -/
def okStringsOnly : StoreValue → Bool
  | .vstr s => s == "OK"
  | .varr l => okStringsOnlyList l
  | .vobj kvs => okStringsOnlyEntries kvs
  | _ => true

def okStringsOnlyList : List StoreValue → Bool
  | [] => true
  | v :: vs => okStringsOnly v && okStringsOnlyList vs

def okStringsOnlyEntries : List (String × StoreValue) → Bool
  | [] => true
  | (_, v) :: kvs => okStringsOnly v && okStringsOnlyEntries kvs

end

/-- The pipeline-mode reply of the test suite's dummy store: each queued
command answers `(null, "PipelineResult: <cmd> <args>")`. -/
def dummyPipeResult (cq : String × List String) : CmdResult :=
  (none, .vstr ("PipelineResult: " ++ cq.1 ++ " " ++ " ".intercalate cq.2))

/-- The multi-mode reply of the test suite's dummy store. -/
def dummyMultiResult (cq : String × List String) : CmdResult :=
  (none, .vstr ("MultiResult: " ++ cq.1 ++ " " ++ " ".intercalate cq.2))

/-- The dummy store client of the repository's test suite: generic calls
echo the command, and each batch mode answers one result per queued
command, in queue order. -/
def dummyRedis : RedisClient where
  ping := "PONG"
  call := fun c args => .ok (.vstr ("Called: " ++ c ++ " " ++ " ".intercalate args))
  pipeExec := fun q => some (q.map dummyPipeResult)
  multiExec := fun q => some (q.map dummyMultiResult)

/-- A custom induction principle for `StoreValue` giving the inductive
hypothesis at every element of an array and every value of a mapping. -/
def StoreValue.inductionOn {P : StoreValue → Prop}
    (hnull : P .vnull) (hbool : ∀ b, P (.vbool b)) (hint : ∀ n, P (.vint n))
    (hstr : ∀ s, P (.vstr s)) (hbytes : ∀ bs, P (.vbytes bs))
    (harr : ∀ l, (∀ v ∈ l, P v) → P (.varr l))
    (hobj : ∀ kvs, (∀ kv ∈ kvs, P kv.2) → P (.vobj kvs)) :
    ∀ v, P v
  | .vnull => hnull
  | .vbool b => hbool b
  | .vint n => hint n
  | .vstr s => hstr s
  | .vbytes bs => hbytes bs
  | .varr l => harr l (fun v hv =>
      StoreValue.inductionOn hnull hbool hint hstr hbytes harr hobj v)
  | .vobj kvs => hobj kvs (fun kv hkv =>
      StoreValue.inductionOn hnull hbool hint hstr hbytes harr hobj kv.2)
termination_by v => sizeOf v
decreasing_by
  · have := List.sizeOf_lt_of_mem hv
    simp only [StoreValue.varr.sizeOf_spec]
    omega
  · have h1 := List.sizeOf_lt_of_mem hkv
    have h2 : sizeOf kv.2 < sizeOf kv := by
      obtain ⟨k, v⟩ := kv
      simp
    simp only [StoreValue.vobj.sizeOf_spec]
    omega

/-!  Helper lemmas shared by the claim theorems. -/

theorem queryArgsOf_foldl (q : List (String × String)) (acc : List String) :
    q.foldl (fun acc kv => if kv.1 = "_token" then acc else acc ++ [kv.1, kv.2]) acc
      = acc ++ (q.filter (fun kv => kv.1 ≠ "_token")).flatMap (fun kv => [kv.1, kv.2]) := by
  induction q generalizing acc with
  | nil => simp
  | cons kv rest ih =>
    by_cases h : kv.1 = "_token" <;> simp [List.foldl_cons, h, ih]

/-- The collected query arguments are the non-`_token` pairs, flattened
as key then value, in the original order. -/
theorem queryArgsOf_eq (q : List (String × String)) :
    queryArgsOf q
      = (q.filter (fun kv => kv.1 ≠ "_token")).flatMap (fun kv => [kv.1, kv.2]) := by
  simpa using queryArgsOf_foldl q []

theorem encodeToBase64List_eq (l : List StoreValue) :
    encodeToBase64List l = l.map encodeToBase64 := by
  induction l with
  | nil => simp [encodeToBase64List]
  | cons v vs ih => simp [encodeToBase64List, ih]

theorem encodeToBase64Entries_eq (kvs : List (String × StoreValue)) :
    encodeToBase64Entries kvs = kvs.map (fun kv => (kv.1, encodeToBase64 kv.2)) := by
  induction kvs with
  | nil => simp [encodeToBase64Entries]
  | cons kv rest ih =>
    obtain ⟨k, v⟩ := kv
    simp [encodeToBase64Entries, ih]

theorem okStringsOnlyList_iff (l : List StoreValue) :
    okStringsOnlyList l = true ↔ ∀ v ∈ l, okStringsOnly v = true := by
  induction l with
  | nil => simp [okStringsOnlyList]
  | cons v vs ih => simp [okStringsOnlyList, ih]

theorem okStringsOnlyEntries_iff (kvs : List (String × StoreValue)) :
    okStringsOnlyEntries kvs = true ↔ ∀ kv ∈ kvs, okStringsOnly kv.2 = true := by
  induction kvs with
  | nil => simp [okStringsOnlyEntries]
  | cons kv rest ih =>
    obtain ⟨k, v⟩ := kv
    simp [okStringsOnlyEntries, ih]

theorem encodeToBase64Entries_id_of_int (kvs : List (String × StoreValue))
    (h : ∀ kv ∈ kvs, ∃ n, kv.2 = .vint n) :
    encodeToBase64Entries kvs = kvs := by
  induction kvs with
  | nil => simp [encodeToBase64Entries]
  | cons kv rest ih =>
    obtain ⟨k, v⟩ := kv
    obtain ⟨n, hn⟩ := h (k, v) (by simp)
    simp only at hn
    subst hn
    simp [encodeToBase64Entries, encodeToBase64,
          ih (fun kv hkv => h kv (by simp [hkv]))]

theorem bufferEntries_int (bs : List Nat) :
    ∀ kv ∈ bufferEntries bs, ∃ n, kv.2 = .vint n := by
  intro kv hkv
  simp only [bufferEntries, List.mem_map] at hkv
  obtain ⟨p, _, rfl⟩ := hkv
  exact ⟨Int.ofNat p.2, rfl⟩

theorem buildQueue_ok (commands : List (List Json))
    (h : ∀ c ∈ commands, c ≠ []) :
    buildQueue commands = .ok (commands.map normCmd) := by
  induction commands with
  | nil => simp [buildQueue]
  | cons c rest ih =>
    match c, h c (by simp) with
    | x :: args, _ =>
      simp [buildQueue, ih (fun c hc => h c (by simp [hc])), normCmd]

theorem effectiveToken_eq (ah : Option String) (q : List (String × String)) :
    effectiveToken ah q = (suppliedToken ah q).getD "" := by
  simp only [effectiveToken, suppliedToken]
  split
  · cases q.find? (fun kv => kv.1 = "_token") <;> (split <;> simp_all)
  · cases q.find? (fun kv => kv.1 = "_token") <;> simp_all

/-!  Claim theorems. -/

/--
Claim C5: when the Base64 encoding header is requested, the formatter
applies `encodeToBase64` (after mapping-flattening), and `encodeToBase64`
replaces every string except the literal `"OK"` by the Base64 of its
UTF-8 bytes, recurses over array elements and mapping values, and passes
null, booleans and integers through unchanged.
-/
theorem base64_header_transform :
    (∀ (v : StoreValue) (enc : Option String), enc.map jsToLower = some "base64" →
      formatRedisResponse v enc = encodeToBase64 (flattenReply v))
    ∧ (∀ s, s ≠ "OK" → encodeToBase64 (.vstr s) = .vstr (b64 s))
    ∧ encodeToBase64 (.vstr "OK") = .vstr "OK"
    ∧ (∀ l, encodeToBase64 (.varr l) = .varr (l.map encodeToBase64))
    ∧ (∀ kvs, encodeToBase64 (.vobj kvs)
        = .vobj (kvs.map (fun kv => (kv.1, encodeToBase64 kv.2))))
    ∧ encodeToBase64 .vnull = .vnull
    ∧ (∀ b, encodeToBase64 (.vbool b) = .vbool b)
    ∧ (∀ n, encodeToBase64 (.vint n) = .vint n) := by
  refine ⟨?_, ?_, ?_, ?_, ?_, ?_, ?_, ?_⟩
  · intro v enc h
    simp [formatRedisResponse, h]
  · intro s h
    simp [encodeToBase64, h]
  · simp [encodeToBase64]
  · intro l
    simp [encodeToBase64, encodeToBase64List_eq]
  · intro kvs
    simp [encodeToBase64, encodeToBase64Entries_eq]
  · simp [encodeToBase64]
  · intro b
    simp [encodeToBase64]
  · intro n
    simp [encodeToBase64]

/-- Witness for C5 at the string `"Hello"` and a `base64` header. -/
theorem base64_header_transform_witness :
    formatRedisResponse (.vstr "Hello") (some "base64")
      = encodeToBase64 (flattenReply (.vstr "Hello"))
    ∧ encodeToBase64 (.vstr "Hello") = .vstr (b64 "Hello") :=
  ⟨base64_header_transform.1 (.vstr "Hello") (some "base64") (by decide),
   base64_header_transform.2.1 "Hello" (by decide)⟩

/--
Counterexample for C6: a raw byte buffer does not pass through the
no-header formatter unchanged — it satisfies the non-null, non-array
`object` test and is flattened into an alternating index/byte array.
-/
theorem buffer_not_passed_through :
    formatRedisResponse (.vbytes [104, 105]) none ≠ .vbytes [104, 105] := by
  simp [formatRedisResponse, flattenReply, bufferEntries]

/--
Claim C6 as amended: with no Base64 header requested, the formatter
returns `flattenReply` of the value; null, booleans, integers, strings
and arrays pass through `flattenReply` unchanged, while mappings — and
raw byte buffers, which satisfy the same non-array non-null object test —
are flattened into alternating key/value (index/byte) arrays.
-/
theorem no_header_pass_through :
    (∀ (v : StoreValue) (enc : Option String), enc.map jsToLower ≠ some "base64" →
      formatRedisResponse v enc = flattenReply v)
    ∧ flattenReply .vnull = .vnull
    ∧ (∀ b, flattenReply (.vbool b) = .vbool b)
    ∧ (∀ n, flattenReply (.vint n) = .vint n)
    ∧ (∀ s, flattenReply (.vstr s) = .vstr s)
    ∧ (∀ l, flattenReply (.varr l) = .varr l)
    ∧ (∀ kvs, flattenReply (.vobj kvs)
        = .varr (kvs.flatMap (fun kv => [.vstr kv.1, kv.2])))
    ∧ (∀ bs, flattenReply (.vbytes bs)
        = .varr ((bufferEntries bs).flatMap (fun kv => [.vstr kv.1, kv.2]))) := by
  refine ⟨?_, rfl, fun b => rfl, fun n => rfl, fun s => rfl, fun l => rfl,
          fun kvs => rfl, fun bs => rfl⟩
  intro v enc h
  simp [formatRedisResponse, h]

/-- Witness for C6 (amended) with no header at all, on a string. -/
theorem no_header_pass_through_witness :
    formatRedisResponse (.vstr "hi") none = flattenReply (.vstr "hi") :=
  no_header_pass_through.1 (.vstr "hi") none (by decide)

/--
Claim C7: whenever `buildCommand` succeeds, its argument list ends with
the non-`_token` query pairs, each as key then value, in the original
iteration order, after all body- or path-derived arguments.
-/
theorem pathCommand_args_suffix (p : String) (qargs : List String) (c : String)
    (args : List String) (h : pathCommand p qargs = .ok (c, args)) :
    ∃ pre, args = pre ++ qargs := by
  unfold pathCommand at h
  split at h
  · exact absurd h (by simp)
  · injection h with h'
    injection h' with h1 h2
    exact ⟨_, h2.symm⟩

theorem query_args_last (req : Req) (p c : String) (args : List String)
    (h : buildCommand req p = .ok (c, args)) :
    ∃ pre, args
      = pre ++ (req.query.filter (fun kv => kv.1 ≠ "_token")).flatMap
          (fun kv => [kv.1, kv.2]) := by
  rw [← queryArgsOf_eq]
  by_cases hb : req.method = "POST" ∧ jsTrim req.bodyText ≠ ""
  · obtain ⟨hb1, hb2⟩ := hb
    cases hj : req.bodyJson with
    | none =>
      rw [buildCommand] at h
      simp [hb1, hb2, hj] at h
    | some j =>
      cases j with
      | jarr elems =>
        rw [buildCommand] at h
        simp only [hb1, hb2, hj, ne_eq, not_false_eq_true, and_self, if_true,
                   ite_true, if_pos] at h
        split at h
        · exact absurd h (by simp)
        · split at h
          · exact absurd h (by simp)
          · injection h with h'
            injection h' with h1 h2
            exact ⟨_, h2.symm⟩
      | jnull =>
        rw [buildCommand] at h
        rw [if_pos ⟨hb1, hb2⟩, hj] at h
        exact pathCommand_args_suffix _ _ _ _ h
      | jbool b =>
        rw [buildCommand] at h
        rw [if_pos ⟨hb1, hb2⟩, hj] at h
        exact pathCommand_args_suffix _ _ _ _ h
      | jnum n =>
        rw [buildCommand] at h
        rw [if_pos ⟨hb1, hb2⟩, hj] at h
        exact pathCommand_args_suffix _ _ _ _ h
      | jstr s =>
        rw [buildCommand] at h
        rw [if_pos ⟨hb1, hb2⟩, hj] at h
        exact pathCommand_args_suffix _ _ _ _ h
      | jobj kvs =>
        rw [buildCommand] at h
        rw [if_pos ⟨hb1, hb2⟩, hj] at h
        exact pathCommand_args_suffix _ _ _ _ h
  · rw [buildCommand] at h
    rw [if_neg hb] at h
    exact pathCommand_args_suffix _ _ _ _ h

/-- Witness for C7 at a POST body command with one extra query pair. -/
theorem query_args_last_witness :
    ∃ pre, (["Hello", "extra", "param"] : List String)
      = pre ++ (([("extra", "param")] : List (String × String)).filter
          (fun kv => kv.1 ≠ "_token")).flatMap (fun kv => [kv.1, kv.2]) :=
  query_args_last
    { method := "POST", pathname := "/echo", authHeader := none,
      query := [("extra", "param")],
      bodyText := "[\"echo\",\"Hello\"]",
      bodyJson := some (.jarr [.jstr "echo", .jstr "Hello"]),
      upstashEncoding := none, responseFormat := none }
    "/echo" "echo" ["Hello", "extra", "param"] rfl

/--
Claim C8: a POST request with a non-blank body that is not parseable as
JSON makes `buildCommand` fail with the JSON-parse error rather than
falling back to the URL path.
-/
theorem unparseable_body_fatal (req : Req) (p : String)
    (h1 : req.method = "POST") (h2 : jsTrim req.bodyText ≠ "")
    (h3 : req.bodyJson = none) :
    buildCommand req p = .error "Unable to parse request body as JSON." := by
  simp [buildCommand, h1, h2, h3]

/-- Witness for C8 on the body `"\x7boops"`. -/
theorem unparseable_body_fatal_witness :
    buildCommand
      { method := "POST", pathname := "/set/foo", authHeader := none,
        query := [], bodyText := "\x7boops", bodyJson := none,
        upstashEncoding := none, responseFormat := none } "/set/foo"
      = .error "Unable to parse request body as JSON." :=
  unparseable_body_fatal _ _ rfl (by decide) rfl

/--
Counterexample for C9: the Base64 transform is not idempotent — applying
`encodeToBase64` twice to the string `"Hello"` re-encodes the Base64 text
and differs from applying it once.
-/
theorem base64_not_idempotent :
    encodeToBase64 (encodeToBase64 (.vstr "Hello"))
      ≠ encodeToBase64 (.vstr "Hello") := by
  simp only [encodeToBase64]
  simp only [show (("Hello" : String) = "OK") = False by simp, if_false]
  simp only [show ((b64 "Hello" : String) = "OK") = False by decide, if_false]
  simp only [ne_eq, StoreValue.vstr.injEq]
  decide

/--
Claim C9 as amended: encoding the literal `"OK"` is a no-op, and the
Base64 transform is idempotent on every value whose strings (at any
depth) are all the literal `"OK"` — a sufficient condition, not a
necessary one: the empty string, whose Base64 encoding is itself, is
also a fixed point.  The transform is not idempotent in general, as the
counterexample at `"Hello"` shows.
-/
theorem base64_idempotent_on_ok_values :
    (∀ v, okStringsOnly v = true →
      encodeToBase64 (encodeToBase64 v) = encodeToBase64 v)
    ∧ encodeToBase64 (.vstr "OK") = .vstr "OK"
    ∧ encodeToBase64 (encodeToBase64 (.vstr "")) = encodeToBase64 (.vstr "")
    ∧ okStringsOnly (.vstr "") = false := by
  have he : b64 "" = "" := by decide
  refine ⟨?_, by simp [encodeToBase64], by simp [encodeToBase64, he], by simp [okStringsOnly]⟩
  intro v
  induction v using StoreValue.inductionOn with
  | hnull => intro _; simp [encodeToBase64]
  | hbool b => intro _; simp [encodeToBase64]
  | hint n => intro _; simp [encodeToBase64]
  | hstr s =>
    intro h
    simp only [okStringsOnly, beq_iff_eq] at h
    subst h
    simp [encodeToBase64]
  | hbytes bs =>
    intro _
    simp only [encodeToBase64]
    rw [encodeToBase64Entries_id_of_int _ (bufferEntries_int bs)]
  | harr l ih =>
    intro h
    simp only [okStringsOnly, okStringsOnlyList_iff] at h
    simp only [encodeToBase64, encodeToBase64List_eq, List.map_map,
               StoreValue.varr.injEq]
    exact List.map_congr_left (fun v hv => ih v hv (h v hv))
  | hobj kvs ih =>
    intro h
    simp only [okStringsOnly, okStringsOnlyEntries_iff] at h
    simp only [encodeToBase64, encodeToBase64Entries_eq, List.map_map,
               StoreValue.vobj.injEq]
    exact List.map_congr_left (fun kv hkv => by
      simp only [Function.comp_apply]
      exact congrArg (Prod.mk kv.1) (ih kv hkv (h kv hkv)))

/-- Witness for C9 (amended) on an array whose only string is `"OK"`. -/
theorem base64_idempotent_on_ok_values_witness :
    encodeToBase64 (encodeToBase64 (.varr [.vstr "OK", .vint 3]))
      = encodeToBase64 (.varr [.vstr "OK", .vint 3]) :=
  base64_idempotent_on_ok_values.1 (.varr [.vstr "OK", .vint 3])
    (by simp [okStringsOnly, okStringsOnlyList])

/--
Claim C10: when the `Authorization` header starts with `"Bearer "`
followed by a non-empty token, `checkAuth` compares only that header
token against the secret, for every query string; consequently a wrong
Bearer token together with a correct `_token` query parameter is still
rejected.
-/
theorem bearer_token_precedence (ah secret : String)
    (query : List (String × String))
    (h1 : jsStartsWith ah "Bearer " = true) (h2 : jsSlice ah 7 ≠ "") :
    checkAuth (some ah) query secret = (jsSlice ah 7 == secret)
    ∧ (jsSlice ah 7 ≠ secret → checkAuth (some ah) query secret = false) := by
  have hmain : checkAuth (some ah) query secret = (jsSlice ah 7 == secret) := by
    simp [checkAuth, effectiveToken, h1, h2]
  exact ⟨hmain, fun hne => by simp [hmain, hne]⟩

/-- Witness for C10: wrong Bearer token plus correct `_token` query
parameter is rejected. -/
theorem bearer_token_precedence_witness :
    checkAuth (some "Bearer WRONG") [("_token", "MY_SUPER_SECRET_TOKEN")]
      "MY_SUPER_SECRET_TOKEN" = false :=
  (bearer_token_precedence "Bearer WRONG" "MY_SUPER_SECRET_TOKEN"
    [("_token", "MY_SUPER_SECRET_TOKEN")] (by decide) (by decide)).2 (by decide)

theorem buildCommand_of_array_body (req : Req) (p : String) (es : List Json)
    (h1 : req.method = "POST") (h2 : jsTrim req.bodyText ≠ "")
    (hj : req.bodyJson = some (.jarr es)) :
    buildCommand req p
      = (if (es.head?.map isJsonArr).getD false then .error batchRedirectMsg
         else match parseGenericCommand es with
              | .error e => .error e
              | .ok (c, args) => .ok (c, args ++ queryArgsOf req.query)) := by
  rw [buildCommand, if_pos ⟨h1, h2⟩, hj]

/--
Counterexample for C3: on a non-POST request the body is never parsed,
so even a body that is an array of arrays falls back to the URL path
instead of raising the batch-redirect error.
-/
theorem array_body_ignored_on_get :
    buildCommand
      { method := "GET", pathname := "/get/foo", authHeader := none, query := [],
        bodyText := "[[\"set\",\"k\",\"v\"]]",
        bodyJson := some (.jarr [.jarr [.jstr "set", .jstr "k", .jstr "v"]]),
        upstashEncoding := none, responseFormat := none } "/get/foo"
      ≠ .error batchRedirectMsg
    ∧ buildCommand
      { method := "GET", pathname := "/get/foo", authHeader := none, query := [],
        bodyText := "[[\"set\",\"k\",\"v\"]]",
        bodyJson := some (.jarr [.jarr [.jstr "set", .jstr "k", .jstr "v"]]),
        upstashEncoding := none, responseFormat := none } "/get/foo"
      = .ok ("get", ["foo"]) :=
  ⟨fun h => Except.noConfusion h, rfl⟩

/--
Claim C3 as amended: for POST requests with a non-blank body, an array
body decides the outcome with the URL path ignored — a valid flat array
(first element a string) yields that command with the query arguments
appended, and an array whose first element is an array raises the
batch-redirect error regardless of the path; the path fallback runs
exactly when the method is not POST, the body is blank, or the parsed
body is not an array.
-/
theorem post_body_precedence :
    (∀ (req : Req) (p q : String), req.method = "POST" → jsTrim req.bodyText ≠ "" →
      (∃ es, req.bodyJson = some (.jarr es)) →
      buildCommand req p = buildCommand req q)
    ∧ (∀ (req : Req) (p : String) (es : List Json) (c : String) (args : List String),
      req.method = "POST" → jsTrim req.bodyText ≠ "" →
      req.bodyJson = some (.jarr es) →
      (es.head?.map isJsonArr).getD false = false →
      parseGenericCommand es = .ok (c, args) →
      buildCommand req p = .ok (c, args ++ queryArgsOf req.query))
    ∧ (∀ (req : Req) (p : String) (xs es : List Json),
      req.method = "POST" → jsTrim req.bodyText ≠ "" →
      req.bodyJson = some (.jarr (.jarr xs :: es)) →
      buildCommand req p = .error batchRedirectMsg)
    ∧ (∀ (req : Req) (p : String),
      (¬ (req.method = "POST" ∧ jsTrim req.bodyText ≠ "")
        ∨ ∃ j, req.bodyJson = some j ∧ isJsonArr j = false) →
      buildCommand req p = pathCommand p (queryArgsOf req.query)) := by
  refine ⟨?_, ?_, ?_, ?_⟩
  · rintro req p q h1 h2 ⟨es, hj⟩
    rw [buildCommand_of_array_body req p es h1 h2 hj,
        buildCommand_of_array_body req q es h1 h2 hj]
  · intro req p es c args h1 h2 hj hhead hparse
    rw [buildCommand_of_array_body req p es h1 h2 hj, hhead, hparse]
    simp
  · intro req p xs es h1 h2 hj
    rw [buildCommand_of_array_body req p (.jarr xs :: es) h1 h2 hj]
    simp [isJsonArr]
  · rintro req p (hb | ⟨j, hj, hja⟩)
    · rw [buildCommand, if_neg hb]
    · by_cases hb : req.method = "POST" ∧ jsTrim req.bodyText ≠ ""
      · cases j with
        | jarr es => simp [isJsonArr] at hja
        | jnull => rw [buildCommand, if_pos hb, hj]
        | jbool b => rw [buildCommand, if_pos hb, hj]
        | jnum n => rw [buildCommand, if_pos hb, hj]
        | jstr s => rw [buildCommand, if_pos hb, hj]
        | jobj kvs => rw [buildCommand, if_pos hb, hj]
      · rw [buildCommand, if_neg hb]

/-- Witness for C3 (amended): a valid flat array body wins, with the
path argument irrelevant. -/
theorem post_body_precedence_witness :
    buildCommand
      { method := "POST", pathname := "/ignored/path", authHeader := none,
        query := [], bodyText := "[\"echo\",\"Hello\"]",
        bodyJson := some (.jarr [.jstr "echo", .jstr "Hello"]),
        upstashEncoding := none, responseFormat := none } "/ignored/path"
      = .ok ("echo", ["Hello"] ++ queryArgsOf []) :=
  post_body_precedence.2.1
    { method := "POST", pathname := "/ignored/path", authHeader := none,
      query := [], bodyText := "[\"echo\",\"Hello\"]",
      bodyJson := some (.jarr [.jstr "echo", .jstr "Hello"]),
      upstashEncoding := none, responseFormat := none }
    "/ignored/path" [.jstr "echo", .jstr "Hello"] "echo" ["Hello"]
    rfl (by decide) rfl rfl rfl

/--
Claim C4: the batch executor queues the commands in the exact order
given; when the store answers one result per queued command in queue
order (as both batch modes do), the executor returns those pairs in
submission order, one per command, in both modes; the empty list yields
the empty result sequence.
-/
theorem batch_preserves_order (r : RedisClient)
    (fp fm : String × List String → CmdResult)
    (hp : ∀ q, r.pipeExec q = some (q.map fp))
    (hm : ∀ q, r.multiExec q = some (q.map fm))
    (commands : List (List Json)) (hne : ∀ c ∈ commands, c ≠ []) :
    buildQueue commands = .ok (commands.map normCmd)
    ∧ executeBatchCommands r commands .pipeline
        = .ok ((commands.map normCmd).map fp)
    ∧ executeBatchCommands r commands .multi
        = .ok ((commands.map normCmd).map fm)
    ∧ ((commands.map normCmd).map fp).length = commands.length
    ∧ executeBatchCommands r [] .pipeline = .ok []
    ∧ executeBatchCommands r [] .multi = .ok [] := by
  have hq := buildQueue_ok commands hne
  refine ⟨hq, ?_, ?_, by simp, ?_, ?_⟩
  · simp only [executeBatchCommands, hq, hp]
  · simp only [executeBatchCommands, hq, hm]
  · simp only [executeBatchCommands, buildQueue, hp, List.map_nil]
  · simp only [executeBatchCommands, buildQueue, hm, List.map_nil]

/-- Witness for C4 on the spec's pipeline scenario, against the test
suite's dummy store. -/
theorem batch_preserves_order_witness :
    buildQueue [[.jstr "set", .jstr "foo", .jstr "bar"], [.jstr "get", .jstr "foo"]]
      = .ok [("set", ["foo", "bar"]), ("get", ["foo"])]
    ∧ executeBatchCommands dummyRedis
        [[.jstr "set", .jstr "foo", .jstr "bar"], [.jstr "get", .jstr "foo"]] .pipeline
      = .ok [(none, .vstr "PipelineResult: set foo bar"),
             (none, .vstr "PipelineResult: get foo")]
    ∧ executeBatchCommands dummyRedis [] .pipeline = .ok [] := by
  have h := batch_preserves_order dummyRedis dummyPipeResult dummyMultiResult
    (fun q => rfl) (fun q => rfl)
    [[.jstr "set", .jstr "foo", .jstr "bar"], [.jstr "get", .jstr "foo"]]
    (by simp)
  exact ⟨h.1, h.2.1, h.2.2.2.2.1⟩

/--
Claim C1: with a response-format header requesting RESP2, the formatter
returns the recursive RESP2 encoding of the (flattened) reply, matching
the fixtures, and RESP2 takes precedence when the Base64 header is also
present.  The RESP2 code is modelled from the spec: it is exercised by
the repository's tests but missing from the copy of `server.ts` under
`src/`.
-/
theorem resp2_header_encoding :
    (∀ (v : StoreValue) (rf enc : Option String), rf.map jsToLower = some "resp2" →
      formatRedisResponseR2 v rf enc = .inl (formatResp2 (flattenReply v)))
    ∧ formatResp2 .vnull = "$-1\r\n"
    ∧ formatResp2 (.vbool true) = ":1\r\n"
    ∧ formatResp2 (.vint 123) = ":123\r\n"
    ∧ formatResp2 (.vstr "OK") = "+OK\r\n"
    ∧ formatResp2 (.vstr "Hello") = "$5\r\nHello\r\n"
    ∧ formatResp2 (.varr [.vstr "Hello", .vstr "World"])
        = "*2\r\n$5\r\nHello\r\n$5\r\nWorld\r\n"
    ∧ (∀ v, formatRedisResponseR2 v (some "resp2") (some "base64")
        = .inl (formatResp2 (flattenReply v))) := by
  have hlow : jsToLower "resp2" = "resp2" := by decide
  refine ⟨?_, ?_, ?_, ?_, ?_, ?_, ?_, ?_⟩
  · intro v rf enc h
    simp [formatRedisResponseR2, h]
  · simp [formatResp2]
  · simp [formatResp2]
  · simp [formatResp2]
    decide
  · simp [formatResp2]
  · simp [formatResp2]
    decide
  · simp [formatResp2, formatResp2List]
    decide
  · intro v
    simp [formatRedisResponseR2, hlow]

/-- Witness for C1 on the string `"Hello"` with both headers present. -/
theorem resp2_header_encoding_witness :
    formatRedisResponseR2 (.vstr "Hello") (some "resp2") (some "base64")
      = .inl (formatResp2 (flattenReply (.vstr "Hello"))) :=
  resp2_header_encoding.1 (.vstr "Hello") (some "resp2") (some "base64") (by decide)

theorem handleBatchCommands_status (r : RedisClient) (req : Req) (mode : BatchMode) :
    (handleBatchCommands r req mode).1 = 200
    ∨ (handleBatchCommands r req mode).1 = 400 := by
  unfold handleBatchCommands
  split
  · exact Or.inr rfl
  · split
    · exact Or.inr rfl
    · exact Or.inl rfl

theorem handler_status_of_auth (r : RedisClient) (secret : String) (req : Req)
    (hp : req.pathname ≠ "/health")
    (hc : checkAuth req.authHeader req.query secret = true) :
    (handler r secret req).1 = 200 ∨ (handler r secret req).1 = 400 := by
  unfold handler
  rw [if_neg hp, if_neg (not_not_intro hc)]
  by_cases h1 : req.pathname = "/pipeline" ∧ req.method = "POST"
  · rw [if_pos h1]
    exact handleBatchCommands_status r req .pipeline
  · rw [if_neg h1]
    by_cases h2 : req.pathname = "/multi-exec" ∧ req.method = "POST"
    · rw [if_pos h2]
      exact handleBatchCommands_status r req .multi
    · rw [if_neg h2]
      cases hbc : buildCommand req req.pathname with
      | error e => simp [hbc]
      | ok ca =>
        obtain ⟨c, args⟩ := ca
        cases hcall : r.call c args with
        | error e => simp [hbc, hcall]
        | ok reply => simp [hbc, hcall]

/--
Claim C2: for every request off the health path (with the configured
secret non-empty, as the environment schema guarantees), the handler
answers `401 {error: "Unauthorized"}` exactly when the supplied token —
Bearer header token or `_token` query parameter — is absent or differs
from the secret; and `checkAuth` succeeds exactly when the supplied
token equals the secret.
-/
theorem auth_gate_unauthorized (r : RedisClient) (secret : String) (req : Req)
    (hp : req.pathname ≠ "/health") (hs : secret ≠ "") :
    (handler r secret req = (401, .errorMsg "Unauthorized")
      ↔ suppliedToken req.authHeader req.query ≠ some secret)
    ∧ (checkAuth req.authHeader req.query secret = true
      ↔ suppliedToken req.authHeader req.query = some secret) := by
  have hca : checkAuth req.authHeader req.query secret = true
      ↔ suppliedToken req.authHeader req.query = some secret := by
    unfold checkAuth
    rw [effectiveToken_eq]
    cases hst : suppliedToken req.authHeader req.query with
    | none =>
      simp only [Option.getD_none, beq_iff_eq]
      simp only [show (none = some secret) = False by simp, iff_false]
      exact fun h => hs h.symm
    | some t => simp [beq_iff_eq]
  refine ⟨?_, hca⟩
  by_cases hc : checkAuth req.authHeader req.query secret = true
  · have hst := hca.mp hc
    have hstat := handler_status_of_auth r secret req hp hc
    constructor
    · intro h
      rcases hstat with h2 | h2 <;> rw [h] at h2 <;> simp at h2
    · intro h
      exact absurd hst h
  · have hne : suppliedToken req.authHeader req.query ≠ some secret :=
      fun h => hc (hca.mpr h)
    have hh : handler r secret req = (401, .errorMsg "Unauthorized") := by
      unfold handler
      rw [if_neg hp, if_pos hc]
    simp [hh, hne]

/-- Witness for C2: a request with no token at all on a non-health path
is answered 401 Unauthorized. -/
theorem auth_gate_unauthorized_witness :
    handler dummyRedis "MY_SUPER_SECRET_TOKEN"
      { method := "GET", pathname := "/echo", authHeader := none, query := [],
        bodyText := "", bodyJson := none,
        upstashEncoding := none, responseFormat := none }
      = (401, .errorMsg "Unauthorized") :=
  (auth_gate_unauthorized dummyRedis "MY_SUPER_SECRET_TOKEN"
    { method := "GET", pathname := "/echo", authHeader := none, query := [],
      bodyText := "", bodyJson := none,
      upstashEncoding := none, responseFormat := none }
    (by decide) (by decide)).1.mpr (by decide)

end RedisProxy
